import Mathlib

set_option maxRecDepth 4000

/-!
A shallow embedding of the nrfs in-memory filesystem (src/src/lib.rs,
src/src/mnode.rs, src/src/rwlock.rs) together with proofs about its
operations.  Maps are represented as association lists with exact
HashMap semantics (insert replaces, remove deletes); machine integers
are Nat with explicit wrap-around where the source can overflow; calls
that can panic in the source return a dedicated `panicked` outcome.
-/

/-- Maximum number of reader threads supported by the sharded lock
(src/src/rwlock.rs, MAX_READER_THREADS). -/
def MAX_READER_THREADS : Nat := 192

/-- The error enumeration of src/src/lib.rs (custom_error block). -/
inductive FileSystemError where
  | InvalidFileDescriptor
  | InvalidFile
  | InvalidFlags
  | InvalidOffset
  | PermissionError
  | AlreadyPresent
  | DirectoryError
  | OpenFileLimit
  | OutOfMemory
deriving DecidableEq, Repr

/-- NodeType from src/src/mnode.rs: a memnode is a directory or a file. -/
inductive NodeType where
  | Directory
  | File
deriving DecidableEq, Repr

/-- Modelled from the spec: the missing io module's S_IRWXU mode constant,
the POSIX octal value 0o700 = 448 (spec section 6, Mode constants). -/
def S_IRWXU : Nat := 448

/-- Modelled from the spec: the missing io module's readable bit test.
A mode is readable iff the user-read bit 0o400 (bit 8) is set
(spec section 3, File mode bits). -/
def modeIsReadable (m : Nat) : Bool := m.testBit 8

/-- Modelled from the spec: the missing io module's writable bit test.
A mode is writable iff the user-write bit 0o200 (bit 7) is set
(spec section 3, File mode bits). -/
def modeIsWritable (m : Nat) : Bool := m.testBit 7

/-- Modelled from the spec: the File byte buffer of the missing file
module (spec section 4.3).  Mode bits are fixed at construction; bytes
are a growable sequence whose length is the file size. -/
structure File where
  modes : Nat
  data : List Nat
deriving DecidableEq, Repr

namespace File

/-- Modelled from the spec: File::new allocates an empty buffer with the
given modes (allocation failure is not modelled: in the pure model
allocation always succeeds). -/
def new (modes : Nat) : File := { modes := modes, data := [] }

/-- Modelled from the spec: the mode accessor. -/
def get_mode (f : File) : Nat := f.modes

/-- Modelled from the spec: size() = len(bytes). -/
def get_size (f : File) : Nat := f.data.length

/-- Modelled from the spec (section 4.3): write_file grows the buffer so
that size >= offset + len, zero-fills the gap [old_size, offset),
overwrites [offset, offset+len) with the first len bytes of the source
buffer, and returns len. -/
def write_file (f : File) (buffer : List Nat) (len offset : Nat) : Nat × File :=
  let newLen := max f.data.length (offset + len)
  let d := (List.range newLen).map fun i =>
    if offset ≤ i ∧ i < offset + len then buffer.getD (i - offset) 0
    else f.data.getD i 0
  (len, { f with data := d })

/-- Modelled from the spec (section 4.3): read_file copies
bytes[start..fin] into dst[0..fin-start], leaves the rest of dst
unchanged, and returns fin - start. -/
def read_file (f : File) (dst : List Nat) (start fin : Nat) : Nat × List Nat :=
  let d := (List.range dst.length).map fun i =>
    if i < fin - start then f.data.getD (start + i) 0
    else dst.getD i 0
  (fin - start, d)

/-- Modelled from the spec (section 4.3): truncate() releases the buffer
contents, resetting size to 0. -/
def file_truncate (f : File) : File := { f with data := [] }

end File

/-- MemNode from src/src/mnode.rs: identity, name, kind, optional file
buffer. -/
structure MemNode where
  mnode_num : Nat
  name : String
  node_type : NodeType
  file : Option File
deriving DecidableEq, Repr

/-- Outcome of a MemNode-level call: the source returns
Result<_, FileSystemError> but can also panic through unwrap(). -/
inductive Res (α : Type) where
  | ok : α → Res α
  | err : FileSystemError → Res α
  | panicked : Res α
deriving DecidableEq, Repr

namespace MemNode

/-- MemNode::new (src/src/mnode.rs): a directory gets no buffer, a file
gets a fresh buffer with the given modes.  The source can only fail with
OutOfMemory from File::new, which the pure model treats as infallible. -/
def new (mnode_num : Nat) (pathname : String) (modes : Nat)
    (node_type : NodeType) : MemNode :=
  { mnode_num := mnode_num
  , name := pathname
  , node_type := node_type
  , file := match node_type with
      | NodeType.Directory => none
      | NodeType.File => some (File.new modes) }

/-- MemNode::write (src/src/mnode.rs lines 70-79): PermissionError unless
the node is a writable file; the unwrap() on the absent buffer of a
File-typed node would panic; otherwise delegate to write_file. -/
def write (n : MemNode) (buffer : List Nat) (offset : Nat) :
    Res (Nat × MemNode) :=
  if n.node_type ≠ NodeType.File then Res.err FileSystemError.PermissionError
  else
    match n.file with
    | none => Res.panicked
    | some f =>
      if ¬ modeIsWritable f.get_mode then Res.err FileSystemError.PermissionError
      else
        let len := buffer.length
        let r := f.write_file buffer len offset
        Res.ok (r.1, { n with file := some r.2 })

/-- MemNode::read (src/src/mnode.rs lines 82-114): permission check, the
offset > size check, then the to_read = 0 / overrun check, then
delegation to read_file. -/
def read (n : MemNode) (buffer : List Nat) (offset : Nat) :
    Res (Nat × List Nat) :=
  if n.node_type ≠ NodeType.File then Res.err FileSystemError.PermissionError
  else
    match n.file with
    | none => Res.panicked
    | some f =>
      if ¬ modeIsReadable f.get_mode then Res.err FileSystemError.PermissionError
      else
        let len := buffer.length
        let file_size := f.get_size
        if file_size < offset then Res.err FileSystemError.InvalidOffset
        else
          let bytes_to_read := min (file_size - offset) len
          let new_offset := offset + bytes_to_read
          if new_offset ≤ offset ∨ file_size < new_offset then
            Res.err FileSystemError.InvalidOffset
          else
            let r := f.read_file buffer offset new_offset
            Res.ok (r.1, r.2)

/-- MemNode::get_mnode_type (src/src/mnode.rs). -/
def get_mnode_type (n : MemNode) : NodeType := n.node_type

/-- MemNode::file_truncate (src/src/mnode.rs lines 127-136): Permission
check first (the short-circuit keeps a directory from unwrapping its
absent buffer), then the infallible buffer truncation. -/
def file_truncate (n : MemNode) : Res (Bool × MemNode) :=
  if n.node_type ≠ NodeType.File then Res.err FileSystemError.PermissionError
  else
    match n.file with
    | none => Res.panicked
    | some f =>
      if ¬ modeIsWritable f.get_mode then Res.err FileSystemError.PermissionError
      else Res.ok (true, { n with file := some f.file_truncate })

end MemNode

/-- FileInfo from the missing io module, modelled from the spec
(section 6): size then kind-as-u64, Directory = 1, File = 2. -/
structure FileInfo where
  fsize : Nat
  ftype : Nat
deriving DecidableEq, Repr

/-- An Arc<Mnode> entry of the files map: the id together with the
number of clones held outside the map (so Arc::strong_count = ext + 1
while the entry is in the map). -/
structure Arc where
  id : Nat
  ext : Nat
deriving DecidableEq, Repr

section AList

variable {κ α : Type} [DecidableEq κ]

/-- Association-list lookup with HashMap::get semantics. -/
def alistFind? (k : κ) : List (κ × α) → Option α
  | [] => none
  | (k', v) :: rest => if k' = k then some v else alistFind? k rest

/-- Association-list removal with HashMap::remove semantics. -/
def alistErase (k : κ) : List (κ × α) → List (κ × α)
  | [] => []
  | (k', v) :: rest =>
    if k' = k then alistErase k rest else (k', v) :: alistErase k rest

/-- Association-list insertion with HashMap::insert semantics: the new
binding replaces any previous binding of the key. -/
def alistInsert (k : κ) (v : α) (l : List (κ × α)) : List (κ × α) :=
  (k, v) :: alistErase k l

end AList

/-- MemFS from src/src/lib.rs: the mnode table, the path table with its
reference-counted ids, and the monotone id counter.  The _root field of
the source is a plain (String, u64) copy that no operation reads, so it
is omitted. -/
structure MemFS where
  mnodes : List (Nat × MemNode)
  files : List (String × Arc)
  nextmemnode : Nat
deriving DecidableEq, Repr

/-- Outcome of a MemFS-level call: the value and resulting state on
success, the error and resulting state on failure, or a panic. -/
inductive FsOut (α : Type) where
  | ok : α → MemFS → FsOut α
  | err : FileSystemError → MemFS → FsOut α
  | panicked : FsOut α
deriving DecidableEq, Repr

namespace MemFS

/-- MemFS::default (src/src/lib.rs lines 107-137): root directory with
id 1 at path "/", next id 2.  The Arc stored for "/" has strong count 1
(the _root tuple is a plain copy, not a clone). -/
def defaultFS : MemFS :=
  { mnodes := [(1, MemNode.new 1 "/" S_IRWXU NodeType.Directory)]
  , files := [("/", Arc.mk 1 0)]
  , nextmemnode := 2 }

/-- MemFS::create (src/src/lib.rs lines 141-161): fail with
AlreadyPresent if the path exists (before touching the counter),
otherwise allocate the next id, build a File memnode and install both
map entries. -/
def create (s : MemFS) (pathname : String) (modes : Nat) : FsOut Nat :=
  match alistFind? pathname s.files with
  | some _ => FsOut.err FileSystemError.AlreadyPresent s
  | none =>
    let mnode_num := s.nextmemnode
    let memnode := MemNode.new mnode_num pathname modes NodeType.File
    FsOut.ok mnode_num
      { mnodes := alistInsert mnode_num memnode s.mnodes
      , files := alistInsert pathname (Arc.mk mnode_num 0) s.files
      , nextmemnode := s.nextmemnode + 1 }

/-- The reader-slot index MemFS derives from an mnode number:
mnode_num as usize - 1 with u64 wrap-around (src/src/lib.rs), which
RwLock::read uses to index the 192-entry rlock array
(src/src/rwlock.rs line 135); an index outside the array panics. -/
def readerTid (mnode_num : Nat) : Nat := (mnode_num + (2 ^ 64 - 1)) % 2 ^ 64

/-- MemFS::write (src/src/lib.rs lines 164-174): acquire the sharded
read lock at slot mnode_num - 1 (panicking if the slot index is out of
bounds), look the id up, and delegate to the memnode. -/
def write (s : MemFS) (mnode_num : Nat) (buffer : List Nat) (offset : Nat) :
    FsOut Nat :=
  if MAX_READER_THREADS ≤ readerTid mnode_num then FsOut.panicked
  else
    match alistFind? mnode_num s.mnodes with
    | some node =>
      match node.write buffer offset with
      | Res.ok r => FsOut.ok r.1 { s with mnodes := alistInsert mnode_num r.2 s.mnodes }
      | Res.err e => FsOut.err e s
      | Res.panicked => FsOut.panicked
    | none => FsOut.err FileSystemError.InvalidFile s

/-- MemFS::read (src/src/lib.rs lines 177-187): same slot derivation,
then delegate to the memnode's read; the returned pair is the byte
count and the caller's buffer after the copy. -/
def read (s : MemFS) (mnode_num : Nat) (buffer : List Nat) (offset : Nat) :
    FsOut (Nat × List Nat) :=
  if MAX_READER_THREADS ≤ readerTid mnode_num then FsOut.panicked
  else
    match alistFind? mnode_num s.mnodes with
    | some node =>
      match node.read buffer offset with
      | Res.ok r => FsOut.ok r s
      | Res.err e => FsOut.err e s
      | Res.panicked => FsOut.panicked
    | none => FsOut.err FileSystemError.InvalidFile s

/-- MemFS::lookup (src/src/lib.rs lines 190-195): clone the Arc stored
for the path, which bumps its strong count. -/
def lookup (s : MemFS) (pathname : String) : Option Nat × MemFS :=
  match alistFind? pathname s.files with
  | some arc =>
    (some arc.id,
     { s with files := alistInsert pathname (Arc.mk arc.id (arc.ext + 1)) s.files })
  | none => (none, s)

/-- Dropping a clone previously obtained from lookup on the entry now at
pathname: the Arc Drop impl decrements the strong count.  Part of the
trace semantics, not a MemFS method. -/
def dropRef (s : MemFS) (pathname : String) : MemFS :=
  match alistFind? pathname s.files with
  | some arc =>
    { s with files := alistInsert pathname (Arc.mk arc.id (arc.ext - 1)) s.files }
  | none => s

/-- MemFS::file_info (src/src/lib.rs lines 198-212): slot derivation can
panic as in write; an absent id hits unreachable! and panics; a
directory reports size 0, a file its buffer length. -/
def file_info (s : MemFS) (mnode : Nat) : FsOut FileInfo :=
  if MAX_READER_THREADS ≤ readerTid mnode then FsOut.panicked
  else
    match alistFind? mnode s.mnodes with
    | some node =>
      match node.get_mnode_type with
      | NodeType.Directory => FsOut.ok (FileInfo.mk 0 1) s
      | NodeType.File =>
        match node.file with
        | some f => FsOut.ok (FileInfo.mk f.get_size 2) s
        | none => FsOut.panicked
    | none => FsOut.panicked

/-- MemFS::delete (src/src/lib.rs lines 215-232): remove the path entry;
if its Arc is uniquely owned remove the mnode and succeed, otherwise
re-insert the entry and fail with PermissionError; an absent path fails
with InvalidFile. -/
def delete (s : MemFS) (pathname : String) : FsOut Bool :=
  match alistFind? pathname s.files with
  | some arc =>
    let files1 := alistErase pathname s.files
    if arc.ext = 0 then
      FsOut.ok true { s with files := files1, mnodes := alistErase arc.id s.mnodes }
    else
      FsOut.err FileSystemError.PermissionError
        { s with files := alistInsert pathname arc files1 }
  | none => FsOut.err FileSystemError.InvalidFile s

/-- MemFS::truncate (src/src/lib.rs lines 234-242): resolve the path,
then the id (under reader slot 0), then delegate to the memnode's
file_truncate. -/
def truncate (s : MemFS) (pathname : String) : FsOut Bool :=
  match alistFind? pathname s.files with
  | some arc =>
    match alistFind? arc.id s.mnodes with
    | some node =>
      match node.file_truncate with
      | Res.ok r => FsOut.ok r.1 { s with mnodes := alistInsert arc.id r.2 s.mnodes }
      | Res.err e => FsOut.err e s
      | Res.panicked => FsOut.panicked
    | none => FsOut.err FileSystemError.InvalidFile s
  | none => FsOut.err FileSystemError.InvalidFile s

/-- MemFS::rename (src/src/lib.rs lines 245-260): InvalidFile if old is
absent; if new exists, delete(new).unwrap() (panicking on its failure);
then remove_entry(old).unwrap() (panicking if old vanished) and insert
the captured Arc at new, failing with PermissionError if the insert
displaced an entry. -/
def rename (s : MemFS) (oldname newname : String) : FsOut Bool :=
  if (alistFind? oldname s.files).isNone then FsOut.err FileSystemError.InvalidFile s
  else
    match
      (if (alistFind? newname s.files).isSome then
        match s.delete newname with
        | FsOut.ok _ s1 => some s1
        | FsOut.err _ _ => none
        | FsOut.panicked => none
      else some s) with
    | none => FsOut.panicked
    | some s1 =>
      match alistFind? oldname s1.files with
      | none => FsOut.panicked
      | some arc =>
        let files2 := alistErase oldname s1.files
        match alistFind? newname files2 with
        | none => FsOut.ok true { s1 with files := alistInsert newname arc files2 }
        | some _ =>
          FsOut.err FileSystemError.PermissionError
            { s1 with files := alistInsert newname arc files2 }

end MemFS

/-- One well-formed call of the public interface (plus dropping a held
lookup reference), for trace-level invariants. -/
inductive Op where
  | create (path : String) (modes : Nat)
  | write (id : Nat) (buffer : List Nat) (offset : Nat)
  | read (id : Nat) (buffer : List Nat) (offset : Nat)
  | lookup (path : String)
  | dropRef (path : String)
  | fileInfo (id : Nat)
  | delete (path : String)
  | truncate (path : String)
  | rename (old new : String)
deriving DecidableEq, Repr

/-- The state an FsOut leaves behind; none when the call panicked (the
program dies, so the trace has no successor state). -/
def outState {α : Type} : FsOut α → Option MemFS
  | FsOut.ok _ s' => some s'
  | FsOut.err _ s' => some s'
  | FsOut.panicked => none

/-- Execute one call; none means the call panicked. -/
def stepOp (s : MemFS) : Op → Option MemFS
  | Op.create p m => outState (s.create p m)
  | Op.write i b o => outState (s.write i b o)
  | Op.read i b o => outState (s.read i b o)
  | Op.lookup p => some (s.lookup p).2
  | Op.dropRef p => some (s.dropRef p)
  | Op.fileInfo i => outState (s.file_info i)
  | Op.delete p => outState (s.delete p)
  | Op.truncate p => outState (s.truncate p)
  | Op.rename a b => outState (s.rename a b)

/-- Execute a sequence of calls from a state. -/
def runOps (s : MemFS) : List Op → Option MemFS
  | [] => some s
  | op :: rest =>
    match stepOp s op with
    | some s' => runOps s' rest
    | none => none

/-! ### Lemmas about the association-list map operations -/

theorem alistFind?_erase_ne {κ α : Type} [DecidableEq κ] (k k' : κ)
    (l : List (κ × α)) (h : k' ≠ k) :
    alistFind? k' (alistErase k l) = alistFind? k' l := by
  induction l with
  | nil => rfl
  | cons a rest ih =>
    obtain ⟨ka, va⟩ := a
    by_cases hk : ka = k
    · subst hk
      have hka : ka ≠ k' := Ne.symm h
      simp [alistErase, alistFind?, hka, ih]
    · simp only [alistErase, if_neg hk, alistFind?]
      by_cases hk2 : ka = k'
      · simp [hk2]
      · simp [hk2, ih]

theorem alistFind?_erase_self {κ α : Type} [DecidableEq κ] (k : κ)
    (l : List (κ × α)) : alistFind? k (alistErase k l) = none := by
  induction l with
  | nil => rfl
  | cons a rest ih =>
    obtain ⟨ka, va⟩ := a
    by_cases hk : ka = k
    · simp [alistErase, hk, ih]
    · simp [alistErase, alistFind?, hk, ih]

theorem alistFind?_insert_self {κ α : Type} [DecidableEq κ] (k : κ) (v : α)
    (l : List (κ × α)) : alistFind? k (alistInsert k v l) = some v := by
  simp [alistInsert, alistFind?]

theorem alistFind?_insert_ne {κ α : Type} [DecidableEq κ] (k k' : κ) (v : α)
    (l : List (κ × α)) (h : k' ≠ k) :
    alistFind? k' (alistInsert k v l) = alistFind? k' l := by
  have hk : k ≠ k' := fun hh => h hh.symm
  simp [alistInsert, alistFind?, hk, alistFind?_erase_ne k k' l h]

/-! ### Shared concrete states -/

/-- The state reached from the default filesystem by create("a", S_IRWXU). -/
def fsA : MemFS :=
  { mnodes := [(2, MemNode.new 2 "a" S_IRWXU NodeType.File),
               (1, MemNode.new 1 "/" S_IRWXU NodeType.Directory)]
  , files := [("a", Arc.mk 2 0), ("/", Arc.mk 1 0)]
  , nextmemnode := 3 }

/-- The empty state left behind by delete("/") on the default filesystem. -/
def fsEmpty : MemFS := { mnodes := [], files := [], nextmemnode := 2 }

/-! ### Claim theorems -/

/-- Claim C8: truncating the root directory fails with PermissionError:
for any memnode of kind Directory the kind check in file_truncate fails
before any mode bit is consulted (and before the absent buffer could be
unwrapped), and concretely truncate("/") on the default filesystem
returns PermissionError. -/
theorem truncate_root_permission_error :
    (∀ n : MemNode, n.node_type = NodeType.Directory →
      n.file_truncate = Res.err FileSystemError.PermissionError) ∧
    MemFS.defaultFS.truncate "/" =
      FsOut.err FileSystemError.PermissionError MemFS.defaultFS := by
  constructor
  · intro n h
    simp [MemNode.file_truncate, h]
  · rfl

/-- Witness for C8: the root memnode is a directory and its
file_truncate fails with PermissionError. -/
theorem truncate_root_permission_error_witness :
    (MemNode.new 1 "/" S_IRWXU NodeType.Directory).file_truncate =
      Res.err FileSystemError.PermissionError :=
  truncate_root_permission_error.1 (MemNode.new 1 "/" S_IRWXU NodeType.Directory) rfl

/-- Claim C9: for every mnode number equal to 0 or greater than 192 (as
a u64), MemFS::write, MemFS::read and MemFS::file_info panic instead of
returning InvalidFile, because the reader-slot index mnode_num - 1
wraps around for 0 and indexes past the 192-entry reader-slot array for
larger ids. -/
theorem out_of_range_mnode_panics (id : Nat) (hlt : id < 2 ^ 64)
    (h : id = 0 ∨ 192 < id) (s : MemFS) (buffer : List Nat) (offset : Nat) :
    s.write id buffer offset = FsOut.panicked ∧
    s.read id buffer offset = FsOut.panicked ∧
    s.file_info id = FsOut.panicked := by
  have htid : MAX_READER_THREADS ≤ MemFS.readerTid id := by
    unfold MemFS.readerTid MAX_READER_THREADS
    rcases h with h | h
    · subst h
      decide
    · have heq : id + (2 ^ 64 - 1) = (id - 1) + 2 ^ 64 := by omega
      rw [heq, Nat.add_mod_right, Nat.mod_eq_of_lt (by omega)]
      omega
  refine ⟨?_, ?_, ?_⟩ <;>
    simp [MemFS.write, MemFS.read, MemFS.file_info, htid]

/-- Witness for C9: mnode number 0 on the default filesystem makes all
three calls panic. -/
theorem out_of_range_mnode_panics_witness :
    MemFS.defaultFS.write 0 [] 0 = FsOut.panicked ∧
    MemFS.defaultFS.read 0 [] 0 = FsOut.panicked ∧
    MemFS.defaultFS.file_info 0 = FsOut.panicked :=
  out_of_range_mnode_panics 0 (by decide) (Or.inl rfl) MemFS.defaultFS [] 0

/-- Claim C10: for every path present in the filesystem, rename(p, p)
panics: if the entry's Arc is uniquely owned the inner delete removes
the entry so remove_entry(p).unwrap() panics, and otherwise the unwrap
on delete's PermissionError panics. -/
theorem rename_self_panics (s : MemFS) (p : String) (arc : Arc)
    (h : alistFind? p s.files = some arc) :
    s.rename p p = FsOut.panicked := by
  unfold MemFS.rename
  rw [h]
  simp only [Option.isNone_some, Bool.false_eq_true, if_false, Option.isSome_some, if_true]
  unfold MemFS.delete
  rw [h]
  by_cases he : arc.ext = 0
  · simp [he, alistFind?_erase_self]
  · simp [he]

/-- Witness for C10: rename("/", "/") on the default filesystem panics. -/
theorem rename_self_panics_witness :
    MemFS.defaultFS.rename "/" "/" = FsOut.panicked :=
  rename_self_panics MemFS.defaultFS "/" (Arc.mk 1 0) rfl

/-- Claim C2: the code does not surface the inner delete failure of
rename.  After create("a"), create("b") and a held lookup("b") clone,
the destination "b" has strong count 2, and rename("a", "b") panics on
delete("b").unwrap() instead of returning PermissionError: the run of
the first three calls succeeds while appending the rename makes the run
die. -/
theorem rename_onto_observed_destination_panics :
    (runOps MemFS.defaultFS
      [Op.create "a" S_IRWXU, Op.create "b" S_IRWXU, Op.lookup "b"]).isSome = true ∧
    runOps MemFS.defaultFS
      [Op.create "a" S_IRWXU, Op.create "b" S_IRWXU, Op.lookup "b",
       Op.rename "a" "b"] = none := by
  constructor <;> rfl

/-- Counterexample to claim C1 as stated: delete("/") on the default
filesystem succeeds (the root Arc is uniquely owned), after which
lookup("/") returns nothing and id 1 is gone from mnodes. -/
theorem delete_root_removes_root :
    MemFS.defaultFS.delete "/" = FsOut.ok true fsEmpty ∧
    (fsEmpty.lookup "/").1 = none ∧
    alistFind? 1 fsEmpty.mnodes = none := by
  refine ⟨rfl, rfl, rfl⟩

/-- Counterexample to claim C3 as stated: create("a") on the default
filesystem allocates id 2 leaving next_id = 3, and the second
create("a") fails with AlreadyPresent returning the very same state, so
next_id is unchanged rather than strictly greater. -/
theorem create_already_present_keeps_counter :
    MemFS.defaultFS.create "a" S_IRWXU = FsOut.ok 2 fsA ∧
    fsA.nextmemnode = 3 ∧
    fsA.create "a" S_IRWXU = FsOut.err FileSystemError.AlreadyPresent fsA := by
  refine ⟨rfl, rfl, rfl⟩

/-- Claim C3 (amended): a successful create increments next_id by
exactly one (so it is strictly greater than before), while a create that
fails does so with AlreadyPresent before touching the counter, leaving
the state (and hence next_id) unchanged. -/
theorem create_counter_behavior (s : MemFS) (p : String) (m : Nat) :
    (∀ id s', s.create p m = FsOut.ok id s' →
      s'.nextmemnode = s.nextmemnode + 1 ∧ s.nextmemnode < s'.nextmemnode) ∧
    (∀ e s', s.create p m = FsOut.err e s' →
      e = FileSystemError.AlreadyPresent ∧ s' = s) := by
  constructor
  · intro id s' h
    unfold MemFS.create at h
    cases hf : alistFind? p s.files with
    | some arc => rw [hf] at h; cases h
    | none =>
      rw [hf] at h
      cases h
      exact ⟨rfl, Nat.lt_succ_self _⟩
  · intro e s' h
    unfold MemFS.create at h
    cases hf : alistFind? p s.files with
    | some arc => rw [hf] at h; cases h; exact ⟨rfl, rfl⟩
    | none => rw [hf] at h; cases h

/-- Witness for C3 (amended): the successful create("a") on the default
filesystem bumps the counter from 2 to 3, and the failing repeat leaves
the state untouched. -/
theorem create_counter_behavior_witness :
    (fsA.nextmemnode = MemFS.defaultFS.nextmemnode + 1 ∧
      MemFS.defaultFS.nextmemnode < fsA.nextmemnode) ∧
    (FileSystemError.AlreadyPresent = FileSystemError.AlreadyPresent ∧ fsA = fsA) :=
  ⟨(create_counter_behavior MemFS.defaultFS "a" S_IRWXU).1 2 fsA rfl,
   (create_counter_behavior fsA "a" S_IRWXU).2 FileSystemError.AlreadyPresent fsA rfl⟩

/-- getD on a mapped range evaluates the function inside the range and
defaults outside it. -/
theorem getD_range_map (g : Nat → Nat) (nn i : Nat) :
    ((List.range nn).map g).getD i 0 = if i < nn then g i else 0 := by
  by_cases h : i < nn
  · rw [List.getD_eq_getElem _ 0 (by simpa using h)]
    simp [h]
  · rw [List.getD_eq_default _ 0 (by simpa using Nat.le_of_not_lt h)]
    simp [h]

/-- Claim C4: delete on a present path with a uniquely owned Arc removes
the path from paths and the id from mnodes and returns true; on a
present path with outstanding lookup holders it fails with
PermissionError and the paths mapping is observationally unchanged; on
an absent path it fails with InvalidFile. -/
theorem delete_behavior (s : MemFS) (p : String) :
    (∀ arc : Arc, alistFind? p s.files = some arc → arc.ext = 0 →
      s.delete p = FsOut.ok true
        { s with files := alistErase p s.files,
                 mnodes := alistErase arc.id s.mnodes } ∧
      alistFind? p (alistErase p s.files) = none ∧
      alistFind? arc.id (alistErase arc.id s.mnodes) = none) ∧
    (∀ arc : Arc, alistFind? p s.files = some arc → arc.ext ≠ 0 →
      s.delete p = FsOut.err FileSystemError.PermissionError
        { s with files := alistInsert p arc (alistErase p s.files) } ∧
      ∀ q, alistFind? q (alistInsert p arc (alistErase p s.files)) =
        alistFind? q s.files) ∧
    (alistFind? p s.files = none →
      s.delete p = FsOut.err FileSystemError.InvalidFile s) := by
  refine ⟨?_, ?_, ?_⟩
  · intro arc hfind hext
    exact ⟨by simp [MemFS.delete, hfind, hext],
      alistFind?_erase_self p s.files, alistFind?_erase_self arc.id s.mnodes⟩
  · intro arc hfind hext
    refine ⟨by simp [MemFS.delete, hfind, hext], ?_⟩
    intro q
    by_cases hq : q = p
    · subst hq
      rw [alistFind?_insert_self, hfind]
    · rw [alistFind?_insert_ne p q arc _ hq, alistFind?_erase_ne p q _ hq]
  · intro hfind
    simp [MemFS.delete, hfind]

/-- The state reached from fsA by a held lookup("a") clone: the Arc for
"a" has strong count 2. -/
def fsAL : MemFS :=
  { mnodes := fsA.mnodes
  , files := [("a", Arc.mk 2 1), ("/", Arc.mk 1 0)]
  , nextmemnode := 3 }

/-- Witness for C4: on fsA the unique owner case succeeds, with a held
lookup (fsAL) delete fails with PermissionError leaving paths
observationally unchanged, and an absent path gives InvalidFile. -/
theorem delete_behavior_witness :
    (fsA.delete "a" = FsOut.ok true
      { fsA with files := alistErase "a" fsA.files,
                 mnodes := alistErase 2 fsA.mnodes } ∧
     alistFind? "a" (alistErase "a" fsA.files) = none ∧
     alistFind? 2 (alistErase 2 fsA.mnodes) = none) ∧
    (fsAL.delete "a" = FsOut.err FileSystemError.PermissionError
      { fsAL with files := alistInsert "a" (Arc.mk 2 1) (alistErase "a" fsAL.files) } ∧
     alistFind? "/" (alistInsert "a" (Arc.mk 2 1) (alistErase "a" fsAL.files)) =
       alistFind? "/" fsAL.files) ∧
    fsA.delete "c" = FsOut.err FileSystemError.InvalidFile fsA := by
  refine ⟨(delete_behavior fsA "a").1 (Arc.mk 2 0) rfl rfl, ⟨?_, ?_⟩,
    (delete_behavior fsA "c").2.2 rfl⟩
  · exact ((delete_behavior fsAL "a").2.1 (Arc.mk 2 1) rfl (by decide)).1
  · exact ((delete_behavior fsAL "a").2.1 (Arc.mk 2 1) rfl (by decide)).2 "/"

/-- Claim C5: for a readable file of size sz and a read with a buffer of
length n at an offset, the read fails with InvalidOffset exactly when
offset > sz or min(sz - offset, n) = 0, and otherwise returns
min(sz - offset, n) bytes. -/
theorem read_invalid_offset_iff (n : MemNode) (f : File) (buffer : List Nat)
    (offset : Nat) (hty : n.node_type = NodeType.File) (hf : n.file = some f)
    (hr : modeIsReadable f.get_mode = true) :
    (n.read buffer offset = Res.err FileSystemError.InvalidOffset ↔
      (f.get_size < offset ∨ min (f.get_size - offset) buffer.length = 0)) ∧
    (¬ (f.get_size < offset ∨ min (f.get_size - offset) buffer.length = 0) →
      n.read buffer offset =
        Res.ok (min (f.get_size - offset) buffer.length,
          (f.read_file buffer offset
            (offset + min (f.get_size - offset) buffer.length)).2)) := by
  have hread : n.read buffer offset =
      if f.get_size < offset ∨ min (f.get_size - offset) buffer.length = 0
      then Res.err FileSystemError.InvalidOffset
      else Res.ok (min (f.get_size - offset) buffer.length,
        (f.read_file buffer offset
          (offset + min (f.get_size - offset) buffer.length)).2) := by
    by_cases h1 : f.get_size < offset
    · simp [MemNode.read, hty, hf, hr, h1]
    · by_cases h2 : min (f.get_size - offset) buffer.length = 0
      · simp [MemNode.read, hty, hf, hr, h1, h2]
      · have hmin1 : min (f.get_size - offset) buffer.length ≤ f.get_size - offset :=
          Nat.min_le_left _ _
        have hne : ¬ (offset + min (f.get_size - offset) buffer.length ≤ offset ∨
            f.get_size < offset + min (f.get_size - offset) buffer.length) := by
          omega
        simp only [MemNode.read, hty, hf, hr]
        simp [h1, h2, hne, File.read_file]
        omega
  constructor
  · rw [hread]
    by_cases hc : f.get_size < offset ∨ min (f.get_size - offset) buffer.length = 0
    · rw [if_pos hc]
      exact iff_of_true rfl hc
    · rw [if_neg hc]
      exact iff_of_false (by simp) hc
  · intro hok
    rw [hread, if_neg hok]

/-- The three-byte file of scenario B and its memnode. -/
def fB : File := { modes := 448, data := [65, 66, 67] }

/-- The memnode wrapping fB. -/
def nB : MemNode :=
  { mnode_num := 2, name := "a", node_type := NodeType.File, file := some fB }

/-- Witness for C5: on a readable file of size 3, a 3-byte read at
offset 3 fails with InvalidOffset and a 3-byte read at offset 0 returns
all 3 bytes. -/
theorem read_invalid_offset_iff_witness :
    nB.read [0, 0, 0] 3 = Res.err FileSystemError.InvalidOffset ∧
    nB.read [0, 0, 0] 0 = Res.ok (3, [65, 66, 67]) := by
  have h3 := read_invalid_offset_iff nB fB [0, 0, 0] 3 rfl rfl rfl
  have h0 := read_invalid_offset_iff nB fB [0, 0, 0] 0 rfl rfl rfl
  refine ⟨h3.1.mpr (by decide), ?_⟩
  have h := h0.2 (by decide)
  exact h

/-- Claim C6: a write to a writable file returns len(bytes), the
resulting size is at least offset + len(bytes), the region
[offset, offset + len) holds the written bytes, and the gap
[old_size, offset) is zero-filled. -/
theorem write_grows_and_zero_fills (n : MemNode) (f : File) (bytes : List Nat)
    (offset : Nat) (hty : n.node_type = NodeType.File) (hf : n.file = some f)
    (hw : modeIsWritable f.get_mode = true) :
    n.write bytes offset =
      Res.ok (bytes.length,
        { n with file := some (f.write_file bytes bytes.length offset).2 }) ∧
    offset + bytes.length ≤ (f.write_file bytes bytes.length offset).2.get_size ∧
    (∀ j, j < bytes.length →
      (f.write_file bytes bytes.length offset).2.data.getD (offset + j) 0 =
        bytes.getD j 0) ∧
    (∀ i, f.get_size ≤ i → i < offset →
      (f.write_file bytes bytes.length offset).2.data.getD i 0 = 0) := by
  refine ⟨?_, ?_, ?_, ?_⟩
  · simp [MemNode.write, hty, hf, hw, File.write_file]
  · simp only [File.write_file, File.get_size, List.length_map, List.length_range]
    omega
  · intro j hj
    have hlt : offset + j < max f.data.length (offset + bytes.length) := by omega
    simp only [File.write_file]
    rw [getD_range_map, if_pos hlt,
      if_pos ⟨Nat.le_add_right offset j, by omega⟩]
    have harg : offset + j - offset = j := by omega
    rw [harg]
  · intro i hi hio
    have hlt : i < max f.data.length (offset + bytes.length) := by omega
    have hnotin : ¬ (offset ≤ i ∧ i < offset + bytes.length) := by omega
    simp only [File.write_file]
    rw [getD_range_map, if_pos hlt, if_neg hnotin]
    exact List.getD_eq_default _ 0 hi

/-- Witness for C6: writing 8 bytes at offset 4 into a fresh empty file
yields the exact ok result, a size of at least 12, the written byte at
relative index 0, and a zero in the gap at index 0. -/
theorem write_grows_and_zero_fills_witness :
    (MemNode.new 2 "a" S_IRWXU NodeType.File).write [5, 5, 5, 5, 5, 5, 5, 5] 4 =
      Res.ok (8, { MemNode.new 2 "a" S_IRWXU NodeType.File with
        file := some ((File.new S_IRWXU).write_file [5, 5, 5, 5, 5, 5, 5, 5] 8 4).2 }) ∧
    4 + 8 ≤ ((File.new S_IRWXU).write_file [5, 5, 5, 5, 5, 5, 5, 5] 8 4).2.get_size ∧
    ((File.new S_IRWXU).write_file [5, 5, 5, 5, 5, 5, 5, 5] 8 4).2.data.getD (4 + 0) 0 = 5 ∧
    ((File.new S_IRWXU).write_file [5, 5, 5, 5, 5, 5, 5, 5] 8 4).2.data.getD 0 0 = 0 := by
  have h := write_grows_and_zero_fills (MemNode.new 2 "a" S_IRWXU NodeType.File)
    (File.new S_IRWXU) [5, 5, 5, 5, 5, 5, 5, 5] 4 rfl rfl (by decide)
  exact ⟨h.1, h.2.1, h.2.2.1 0 (by decide), h.2.2.2 0 (by decide) (by decide)⟩

/-- The size of a write_file result is the grown length. -/
theorem write_file_size (f : File) (bytes : List Nat) (offset : Nat) :
    (f.write_file bytes bytes.length offset).2.get_size =
      max f.data.length (offset + bytes.length) := by
  simp [File.write_file, File.get_size]

/-- A write_file result holds the written bytes on [offset, offset+len). -/
theorem write_file_getD_region (f : File) (bytes : List Nat) (offset j : Nat)
    (hj : j < bytes.length) :
    (f.write_file bytes bytes.length offset).2.data.getD (offset + j) 0 =
      bytes.getD j 0 := by
  have hlt : offset + j < max f.data.length (offset + bytes.length) := by omega
  simp only [File.write_file]
  rw [getD_range_map, if_pos hlt, if_pos ⟨Nat.le_add_right offset j, by omega⟩]
  have harg : offset + j - offset = j := by omega
  rw [harg]

/-- Reading a list back from its own getD entries reproduces the list. -/
theorem range_map_getD (l : List Nat) :
    (List.range l.length).map (fun i => l.getD i 0) = l := by
  apply List.ext_getElem
  · simp
  · intro i h1 h2
    simp only [List.getElem_map, List.getElem_range]
    exact List.getD_eq_getElem l 0 h2

/-- A read of a file-typed memnode whose size is exactly
offset + len(dst), with a non-empty destination, succeeds and fills dst
from the buffer. -/
theorem memnode_read_exact (num : Nat) (nm : String) (f : File)
    (dst : List Nat) (offset : Nat)
    (hr : modeIsReadable f.get_mode = true)
    (hsz : f.get_size = offset + dst.length) (hpos : 0 < dst.length) :
    ({ mnode_num := num, name := nm, node_type := NodeType.File,
       file := some f } : MemNode).read dst offset =
      Res.ok (dst.length,
        (List.range dst.length).map fun i => f.data.getD (offset + i) 0) := by
  have h1 : ¬ f.get_size < offset := by omega
  have hmin : min (f.get_size - offset) dst.length = dst.length := by omega
  have h2 : ¬ (offset + dst.length ≤ offset ∨ f.get_size < offset + dst.length) := by
    omega
  have hsub : offset + dst.length - offset = dst.length := by omega
  simp only [MemNode.read, hr, File.read_file]
  simp only [hmin, hsub]
  rw [if_neg (by simp), if_neg h1, if_neg h2]
  simp only [not_true, Bool.not_true, Bool.false_eq_true, if_false]
  congr 1
  refine Prod.ext rfl ?_
  apply List.map_congr_left
  intro a ha
  rw [if_pos (List.mem_range.mp ha)]

/-- The state after create(p, S_IRWXU) on the default filesystem. -/
def csState (p : String) : MemFS :=
  { mnodes := alistInsert 2 (MemNode.new 2 p S_IRWXU NodeType.File) MemFS.defaultFS.mnodes
  , files := alistInsert p (Arc.mk 2 0) MemFS.defaultFS.files
  , nextmemnode := 3 }

/-- The memnode of id 2 after write(2, B, o) on csState p. -/
def wNode (p : String) (B : List Nat) (o : Nat) : MemNode :=
  { mnode_num := 2, name := p, node_type := NodeType.File
  , file := some ((File.new S_IRWXU).write_file B B.length o).2 }

/-- The state after create(p, S_IRWXU) and write(2, B, o). -/
def rwState (p : String) (B : List Nat) (o : Nat) : MemFS :=
  { csState p with mnodes := alistInsert 2 (wNode p B o) (csState p).mnodes }

/-- write_file returns its len argument as the byte count. -/
theorem write_file_fst (f : File) (b : List Nat) (l o : Nat) :
    (f.write_file b l o).1 = l := rfl

/-- Claim C7: round-trip.  For every non-empty byte sequence B and
offset o, after create(p, rw) returning id 2, write(2, B, o), then
read(2, buf, o) with a buffer of length len(B), the call returns len(B)
bytes and the buffer holds exactly B. -/
theorem create_write_read_roundtrip (p : String) (B : List Nat) (o : Nat)
    (hp : p ≠ "/") (hB : B ≠ []) :
    MemFS.defaultFS.create p S_IRWXU = FsOut.ok 2 (csState p) ∧
    (csState p).write 2 B o = FsOut.ok B.length (rwState p B o) ∧
    (rwState p B o).read 2 (List.replicate B.length 0) o =
      FsOut.ok (B.length, B) (rwState p B o) := by
  have hB0 : 0 < B.length := List.length_pos.mpr hB
  have htid : ¬ MAX_READER_THREADS ≤ MemFS.readerTid 2 := by decide
  refine ⟨?_, ?_, ?_⟩
  · have hfind : alistFind? p MemFS.defaultFS.files = none := by
      simp [MemFS.defaultFS, alistFind?, Ne.symm hp]
    simp only [MemFS.create, hfind]
    rfl
  · have hfind : alistFind? 2 (csState p).mnodes =
        some (MemNode.new 2 p S_IRWXU NodeType.File) := alistFind?_insert_self _ _ _
    have hwb : modeIsWritable (File.new S_IRWXU).get_mode = true := by decide
    have hwr : (MemNode.new 2 p S_IRWXU NodeType.File).write B o =
        Res.ok (B.length, wNode p B o) := by
      simp [MemNode.write, MemNode.new, hwb, wNode, write_file_fst]
    simp only [MemFS.write, if_neg htid, hfind, hwr]
    rfl
  · have hfind : alistFind? 2 (rwState p B o).mnodes = some (wNode p B o) := by
      show alistFind? 2 (alistInsert 2 (wNode p B o) (csState p).mnodes) =
        some (wNode p B o)
      exact alistFind?_insert_self _ _ _
    have hmode : ((File.new S_IRWXU).write_file B B.length o).2.get_mode = S_IRWXU := rfl
    have hrd : modeIsReadable
        ((File.new S_IRWXU).write_file B B.length o).2.get_mode = true := by
      rw [hmode]
      decide
    have hsz : ((File.new S_IRWXU).write_file B B.length o).2.get_size =
        o + B.length := by
      rw [write_file_size]
      simp [File.new]
    have hread : (wNode p B o).read (List.replicate B.length 0) o =
        Res.ok (B.length, B) := by
      simp only [wNode]
      rw [memnode_read_exact 2 p _ _ o hrd (by simpa using hsz) (by simpa using hB0)]
      have hmap : (List.range (List.replicate B.length 0).length).map
          (fun i => ((File.new S_IRWXU).write_file B B.length o).2.data.getD (o + i) 0)
            = B := by
        rw [List.length_replicate]
        have h1 : ∀ i ∈ List.range B.length,
            ((File.new S_IRWXU).write_file B B.length o).2.data.getD (o + i) 0 =
              B.getD i 0 := fun i hi =>
          write_file_getD_region (File.new S_IRWXU) B o i (List.mem_range.mp hi)
        rw [List.map_congr_left h1, range_map_getD]
      rw [hmap, List.length_replicate]
    simp only [MemFS.read, if_neg htid, hfind, hread]

/-- Witness for C7: the round-trip with p = "a", B = [7, 8], o = 5. -/
theorem create_write_read_roundtrip_witness :
    MemFS.defaultFS.create "a" S_IRWXU = FsOut.ok 2 (csState "a") ∧
    (csState "a").write 2 [7, 8] 5 = FsOut.ok 2 (rwState "a" [7, 8] 5) ∧
    (rwState "a" [7, 8] 5).read 2 (List.replicate 2 0) 5 =
      FsOut.ok (2, [7, 8]) (rwState "a" [7, 8] 5) :=
  create_write_read_roundtrip "a" [7, 8] 5 (by decide) (by decide)

/-! ### Branch equations for the filesystem operations -/

theorem create_eq_present (s : MemFS) (p : String) (m : Nat) (arc : Arc)
    (hf : alistFind? p s.files = some arc) :
    s.create p m = FsOut.err FileSystemError.AlreadyPresent s := by
  unfold MemFS.create
  rw [hf]

theorem create_eq_absent (s : MemFS) (p : String) (m : Nat)
    (hf : alistFind? p s.files = none) :
    s.create p m = FsOut.ok s.nextmemnode
      { mnodes := alistInsert s.nextmemnode
          (MemNode.new s.nextmemnode p m NodeType.File) s.mnodes
      , files := alistInsert p (Arc.mk s.nextmemnode 0) s.files
      , nextmemnode := s.nextmemnode + 1 } := by
  unfold MemFS.create
  rw [hf]

theorem write_eq_absent (s : MemFS) (i : Nat) (b : List Nat) (o : Nat)
    (htid : ¬ MAX_READER_THREADS ≤ MemFS.readerTid i)
    (hf : alistFind? i s.mnodes = none) :
    s.write i b o = FsOut.err FileSystemError.InvalidFile s := by
  unfold MemFS.write
  rw [if_neg htid, hf]

theorem write_eq_found (s : MemFS) (i : Nat) (b : List Nat) (o : Nat)
    (htid : ¬ MAX_READER_THREADS ≤ MemFS.readerTid i) (node : MemNode)
    (hf : alistFind? i s.mnodes = some node) :
    s.write i b o = match node.write b o with
      | Res.ok r => FsOut.ok r.1 { s with mnodes := alistInsert i r.2 s.mnodes }
      | Res.err e => FsOut.err e s
      | Res.panicked => FsOut.panicked := by
  unfold MemFS.write
  rw [if_neg htid, hf]

theorem read_eq_absent (s : MemFS) (i : Nat) (b : List Nat) (o : Nat)
    (htid : ¬ MAX_READER_THREADS ≤ MemFS.readerTid i)
    (hf : alistFind? i s.mnodes = none) :
    s.read i b o = FsOut.err FileSystemError.InvalidFile s := by
  unfold MemFS.read
  rw [if_neg htid, hf]

theorem read_eq_found (s : MemFS) (i : Nat) (b : List Nat) (o : Nat)
    (htid : ¬ MAX_READER_THREADS ≤ MemFS.readerTid i) (node : MemNode)
    (hf : alistFind? i s.mnodes = some node) :
    s.read i b o = match node.read b o with
      | Res.ok r => FsOut.ok r s
      | Res.err e => FsOut.err e s
      | Res.panicked => FsOut.panicked := by
  unfold MemFS.read
  rw [if_neg htid, hf]

theorem file_info_eq_absent (s : MemFS) (i : Nat)
    (htid : ¬ MAX_READER_THREADS ≤ MemFS.readerTid i)
    (hf : alistFind? i s.mnodes = none) :
    s.file_info i = FsOut.panicked := by
  unfold MemFS.file_info
  rw [if_neg htid, hf]

theorem file_info_eq_found (s : MemFS) (i : Nat)
    (htid : ¬ MAX_READER_THREADS ≤ MemFS.readerTid i) (node : MemNode)
    (hf : alistFind? i s.mnodes = some node) :
    s.file_info i = match node.get_mnode_type with
      | NodeType.Directory => FsOut.ok (FileInfo.mk 0 1) s
      | NodeType.File =>
        match node.file with
        | some f => FsOut.ok (FileInfo.mk f.get_size 2) s
        | none => FsOut.panicked := by
  unfold MemFS.file_info
  rw [if_neg htid, hf]

theorem lookup_eq_absent (s : MemFS) (p : String)
    (hf : alistFind? p s.files = none) : s.lookup p = (none, s) := by
  unfold MemFS.lookup
  rw [hf]

theorem lookup_eq_found (s : MemFS) (p : String) (arc : Arc)
    (hf : alistFind? p s.files = some arc) :
    s.lookup p = (some arc.id,
      { s with files := alistInsert p (Arc.mk arc.id (arc.ext + 1)) s.files }) := by
  unfold MemFS.lookup
  rw [hf]

theorem dropRef_eq_absent (s : MemFS) (p : String)
    (hf : alistFind? p s.files = none) : s.dropRef p = s := by
  unfold MemFS.dropRef
  rw [hf]

theorem dropRef_eq_found (s : MemFS) (p : String) (arc : Arc)
    (hf : alistFind? p s.files = some arc) :
    s.dropRef p =
      { s with files := alistInsert p (Arc.mk arc.id (arc.ext - 1)) s.files } := by
  unfold MemFS.dropRef
  rw [hf]

theorem delete_eq_absent (s : MemFS) (p : String)
    (hf : alistFind? p s.files = none) :
    s.delete p = FsOut.err FileSystemError.InvalidFile s := by
  unfold MemFS.delete
  rw [hf]

theorem delete_eq_unique (s : MemFS) (p : String) (arc : Arc)
    (hf : alistFind? p s.files = some arc) (hext : arc.ext = 0) :
    s.delete p = FsOut.ok true
      { s with files := alistErase p s.files,
               mnodes := alistErase arc.id s.mnodes } := by
  unfold MemFS.delete
  rw [hf]
  dsimp only []
  rw [if_pos hext]

theorem delete_eq_observed (s : MemFS) (p : String) (arc : Arc)
    (hf : alistFind? p s.files = some arc) (hext : arc.ext ≠ 0) :
    s.delete p = FsOut.err FileSystemError.PermissionError
      { s with files := alistInsert p arc (alistErase p s.files) } := by
  unfold MemFS.delete
  rw [hf]
  dsimp only []
  rw [if_neg hext]

theorem truncate_eq_absent (s : MemFS) (p : String)
    (hf : alistFind? p s.files = none) :
    s.truncate p = FsOut.err FileSystemError.InvalidFile s := by
  unfold MemFS.truncate
  rw [hf]

theorem truncate_eq_nomnode (s : MemFS) (p : String) (arc : Arc)
    (hf : alistFind? p s.files = some arc)
    (hm : alistFind? arc.id s.mnodes = none) :
    s.truncate p = FsOut.err FileSystemError.InvalidFile s := by
  unfold MemFS.truncate
  rw [hf]
  dsimp only []
  rw [hm]

theorem truncate_eq_found (s : MemFS) (p : String) (arc : Arc) (node : MemNode)
    (hf : alistFind? p s.files = some arc)
    (hm : alistFind? arc.id s.mnodes = some node) :
    s.truncate p = match node.file_truncate with
      | Res.ok r => FsOut.ok r.1 { s with mnodes := alistInsert arc.id r.2 s.mnodes }
      | Res.err e => FsOut.err e s
      | Res.panicked => FsOut.panicked := by
  unfold MemFS.truncate
  rw [hf]
  dsimp only []
  rw [hm]

theorem rename_eq_absent (s : MemFS) (a b : String)
    (hf : alistFind? a s.files = none) :
    s.rename a b = FsOut.err FileSystemError.InvalidFile s := by
  unfold MemFS.rename
  rw [hf]
  rfl

theorem rename_eq_move (s : MemFS) (a b : String) (arcA : Arc)
    (hfa : alistFind? a s.files = some arcA)
    (hfb : alistFind? b s.files = none) (hab : a ≠ b) :
    s.rename a b = FsOut.ok true
      { s with files := alistInsert b arcA (alistErase a s.files) } := by
  have h2 : alistFind? b (alistErase a s.files) = none := by
    rw [alistFind?_erase_ne a b _ (fun hh => hab hh.symm)]
    exact hfb
  unfold MemFS.rename
  rw [hfa, hfb]
  simp only [Option.isNone_some, Option.isSome_none, Bool.false_eq_true, if_false]
  rw [hfa]
  dsimp only []
  rw [h2]

theorem rename_eq_overwrite (s : MemFS) (a b : String) (arcA arcB : Arc)
    (hfa : alistFind? a s.files = some arcA)
    (hfb : alistFind? b s.files = some arcB)
    (hext : arcB.ext = 0) (hab : a ≠ b) :
    s.rename a b = FsOut.ok true
      { s with files := alistInsert b arcA (alistErase a (alistErase b s.files)),
               mnodes := alistErase arcB.id s.mnodes } := by
  have hfa1 : alistFind? a (alistErase b s.files) = some arcA := by
    rw [alistFind?_erase_ne b a _ hab]
    exact hfa
  have h2 : alistFind? b (alistErase a (alistErase b s.files)) = none := by
    rw [alistFind?_erase_ne a b _ (fun hh => hab hh.symm), alistFind?_erase_self]
  unfold MemFS.rename
  rw [hfa, hfb]
  simp only [Option.isNone_some, Bool.false_eq_true, if_false, Option.isSome_some,
    if_true]
  rw [delete_eq_unique s b arcB hfb hext]
  dsimp only []
  rw [hfa1]
  dsimp only []
  rw [h2]

theorem rename_eq_observed (s : MemFS) (a b : String) (arcA arcB : Arc)
    (hfa : alistFind? a s.files = some arcA)
    (hfb : alistFind? b s.files = some arcB) (hext : arcB.ext ≠ 0) :
    s.rename a b = FsOut.panicked := by
  unfold MemFS.rename
  rw [hfa, hfb]
  simp only [Option.isNone_some, Bool.false_eq_true, if_false, Option.isSome_some,
    if_true]
  rw [delete_eq_observed s b arcB hfb hext]

theorem rename_eq_self_unique (s : MemFS) (a : String) (arcA : Arc)
    (hfa : alistFind? a s.files = some arcA) (hext : arcA.ext = 0) :
    s.rename a a = FsOut.panicked := by
  have h2 : alistFind? a (alistErase a s.files) = none := alistFind?_erase_self _ _
  unfold MemFS.rename
  rw [hfa]
  simp only [Option.isNone_some, Bool.false_eq_true, if_false, Option.isSome_some,
    if_true]
  rw [delete_eq_unique s a arcA hfa hext]
  dsimp only []
  rw [h2]

/-! ### Root preservation -/

/-- The root-preservation invariant: "/" maps to an Arc with id 1, the
memnode 1 exists and is a directory, the id counter stays at least 2,
and no path other than "/" maps to id 1. -/
def RootInv (s : MemFS) : Prop :=
  (∃ arc : Arc, alistFind? "/" s.files = some arc ∧ arc.id = 1) ∧
  (∃ n : MemNode, alistFind? 1 s.mnodes = some n ∧
    n.node_type = NodeType.Directory) ∧
  2 ≤ s.nextmemnode ∧
  ∀ p arc, alistFind? p s.files = some arc → p ≠ "/" → arc.id ≠ 1

/-- Calls that do not target the root path: everything except
delete("/") and any rename whose source or destination is "/". -/
def opAvoidsRoot : Op → Bool
  | Op.delete p => p != "/"
  | Op.rename a b => (a != "/") && (b != "/")
  | _ => true

/-- The default filesystem satisfies the root invariant. -/
theorem RootInv_default : RootInv MemFS.defaultFS := by
  refine ⟨⟨Arc.mk 1 0, rfl, rfl⟩,
    ⟨MemNode.new 1 "/" S_IRWXU NodeType.Directory, rfl, rfl⟩, by decide, ?_⟩
  intro p arc hf hp
  simp [MemFS.defaultFS, alistFind?, Ne.symm hp] at hf

theorem RootInv_create (s : MemFS) (p : String) (m : Nat) (hI : RootInv s)
    (s' : MemFS) (h : stepOp s (Op.create p m) = some s') : RootInv s' := by
  obtain ⟨⟨arcR, hfR, hidR⟩, ⟨nR, hnR, htyR⟩, hnx, huniq⟩ := hI
  replace h : outState (s.create p m) = some s' := h
  cases hf : alistFind? p s.files with
  | some arc =>
    rw [create_eq_present s p m arc hf] at h
    injection h with h
    subst h
    exact ⟨⟨arcR, hfR, hidR⟩, ⟨nR, hnR, htyR⟩, hnx, huniq⟩
  | none =>
    rw [create_eq_absent s p m hf] at h
    injection h with h
    subst h
    have hp : p ≠ "/" := by
      intro hpeq
      subst hpeq
      rw [hfR] at hf
      cases hf
    refine ⟨⟨arcR, ?_, hidR⟩, ⟨nR, ?_, htyR⟩, ?_, ?_⟩
    · rw [alistFind?_insert_ne p "/" _ _ (Ne.symm hp)]
      exact hfR
    · rw [alistFind?_insert_ne s.nextmemnode 1 _ _ (by omega)]
      exact hnR
    · show 2 ≤ s.nextmemnode + 1
      omega
    · intro q arcq hq hqne
      by_cases hqp : q = p
      · subst hqp
        rw [alistFind?_insert_self] at hq
        injection hq with hq
        subst hq
        show s.nextmemnode ≠ 1
        omega
      · rw [alistFind?_insert_ne p q _ _ hqp] at hq
        exact huniq q arcq hq hqne

theorem RootInv_write (s : MemFS) (i : Nat) (b : List Nat) (o : Nat)
    (hI : RootInv s) (s' : MemFS) (h : stepOp s (Op.write i b o) = some s') :
    RootInv s' := by
  obtain ⟨hfiles, ⟨nR, hnR, htyR⟩, hnx, huniq⟩ := hI
  replace h : outState (s.write i b o) = some s' := h
  by_cases htid : MAX_READER_THREADS ≤ MemFS.readerTid i
  · rw [show s.write i b o = FsOut.panicked from by
      unfold MemFS.write; rw [if_pos htid]] at h
    exact Option.noConfusion h
  · cases hf : alistFind? i s.mnodes with
    | none =>
      rw [write_eq_absent s i b o htid hf] at h
      injection h with h
      subst h
      exact ⟨hfiles, ⟨nR, hnR, htyR⟩, hnx, huniq⟩
    | some node =>
      rw [write_eq_found s i b o htid node hf] at h
      cases hw : node.write b o with
      | ok r =>
        rw [hw] at h
        injection h with h
        subst h
        by_cases hi1 : i = 1
        · subst hi1
          rw [hnR] at hf
          injection hf with hf
          subst hf
          simp [MemNode.write, htyR] at hw
        · refine ⟨hfiles, ⟨nR, ?_, htyR⟩, hnx, huniq⟩
          rw [alistFind?_insert_ne i 1 _ _ (fun hh => hi1 hh.symm)]
          exact hnR
      | err e =>
        rw [hw] at h
        injection h with h
        subst h
        exact ⟨hfiles, ⟨nR, hnR, htyR⟩, hnx, huniq⟩
      | panicked =>
        rw [hw] at h
        exact Option.noConfusion h

theorem RootInv_read (s : MemFS) (i : Nat) (b : List Nat) (o : Nat)
    (hI : RootInv s) (s' : MemFS) (h : stepOp s (Op.read i b o) = some s') :
    RootInv s' := by
  have hs : s' = s := by
    replace h : outState (s.read i b o) = some s' := h
    by_cases htid : MAX_READER_THREADS ≤ MemFS.readerTid i
    · rw [show s.read i b o = FsOut.panicked from by
        unfold MemFS.read; rw [if_pos htid]] at h
      exact Option.noConfusion h
    · cases hf : alistFind? i s.mnodes with
      | none =>
        rw [read_eq_absent s i b o htid hf] at h
        injection h with h
        exact h.symm
      | some node =>
        rw [read_eq_found s i b o htid node hf] at h
        cases hr : node.read b o with
        | ok r =>
          rw [hr] at h
          injection h with h
          exact h.symm
        | err e =>
          rw [hr] at h
          injection h with h
          exact h.symm
        | panicked =>
          rw [hr] at h
          exact Option.noConfusion h
  subst hs
  exact hI

theorem RootInv_fileInfo (s : MemFS) (i : Nat) (hI : RootInv s)
    (s' : MemFS) (h : stepOp s (Op.fileInfo i) = some s') : RootInv s' := by
  have hs : s' = s := by
    replace h : outState (s.file_info i) = some s' := h
    by_cases htid : MAX_READER_THREADS ≤ MemFS.readerTid i
    · rw [show s.file_info i = FsOut.panicked from by
        unfold MemFS.file_info; rw [if_pos htid]] at h
      exact Option.noConfusion h
    · cases hf : alistFind? i s.mnodes with
      | none =>
        rw [file_info_eq_absent s i htid hf] at h
        exact Option.noConfusion h
      | some node =>
        rw [file_info_eq_found s i htid node hf] at h
        cases hty : node.get_mnode_type with
        | Directory =>
          rw [hty] at h
          injection h with h
          exact h.symm
        | File =>
          rw [hty] at h
          cases hfl : node.file with
          | none =>
            rw [hfl] at h
            exact Option.noConfusion h
          | some f =>
            rw [hfl] at h
            injection h with h
            exact h.symm
  subst hs
  exact hI

theorem RootInv_lookup (s : MemFS) (p : String) (hI : RootInv s)
    (s' : MemFS) (h : stepOp s (Op.lookup p) = some s') : RootInv s' := by
  obtain ⟨⟨arcR, hfR, hidR⟩, hmn, hnx, huniq⟩ := hI
  replace h : some (s.lookup p).2 = some s' := h
  injection h with h
  subst h
  cases hf : alistFind? p s.files with
  | none =>
    rw [lookup_eq_absent s p hf]
    exact ⟨⟨arcR, hfR, hidR⟩, hmn, hnx, huniq⟩
  | some arc =>
    rw [lookup_eq_found s p arc hf]
    refine ⟨?_, hmn, hnx, ?_⟩
    · by_cases hp : p = "/"
      · subst hp
        refine ⟨Arc.mk arc.id (arc.ext + 1), alistFind?_insert_self _ _ _, ?_⟩
        rw [hfR] at hf
        injection hf with hf
        subst hf
        exact hidR
      · exact ⟨arcR,
          by rw [alistFind?_insert_ne p "/" _ _ (Ne.symm hp)]; exact hfR, hidR⟩
    · intro q arcq hq hqne
      by_cases hqp : q = p
      · subst hqp
        rw [alistFind?_insert_self] at hq
        injection hq with hq
        subst hq
        show arc.id ≠ 1
        exact huniq q arc hf hqne
      · rw [alistFind?_insert_ne p q _ _ hqp] at hq
        exact huniq q arcq hq hqne

theorem RootInv_dropRef (s : MemFS) (p : String) (hI : RootInv s)
    (s' : MemFS) (h : stepOp s (Op.dropRef p) = some s') : RootInv s' := by
  obtain ⟨⟨arcR, hfR, hidR⟩, hmn, hnx, huniq⟩ := hI
  replace h : some (s.dropRef p) = some s' := h
  injection h with h
  subst h
  cases hf : alistFind? p s.files with
  | none =>
    rw [dropRef_eq_absent s p hf]
    exact ⟨⟨arcR, hfR, hidR⟩, hmn, hnx, huniq⟩
  | some arc =>
    rw [dropRef_eq_found s p arc hf]
    refine ⟨?_, hmn, hnx, ?_⟩
    · by_cases hp : p = "/"
      · subst hp
        refine ⟨Arc.mk arc.id (arc.ext - 1), alistFind?_insert_self _ _ _, ?_⟩
        rw [hfR] at hf
        injection hf with hf
        subst hf
        exact hidR
      · exact ⟨arcR,
          by rw [alistFind?_insert_ne p "/" _ _ (Ne.symm hp)]; exact hfR, hidR⟩
    · intro q arcq hq hqne
      by_cases hqp : q = p
      · subst hqp
        rw [alistFind?_insert_self] at hq
        injection hq with hq
        subst hq
        show arc.id ≠ 1
        exact huniq q arc hf hqne
      · rw [alistFind?_insert_ne p q _ _ hqp] at hq
        exact huniq q arcq hq hqne

theorem RootInv_delete (s : MemFS) (p : String) (hp : p ≠ "/") (hI : RootInv s)
    (s' : MemFS) (h : stepOp s (Op.delete p) = some s') : RootInv s' := by
  obtain ⟨⟨arcR, hfR, hidR⟩, ⟨nR, hnR, htyR⟩, hnx, huniq⟩ := hI
  replace h : outState (s.delete p) = some s' := h
  cases hf : alistFind? p s.files with
  | none =>
    rw [delete_eq_absent s p hf] at h
    injection h with h
    subst h
    exact ⟨⟨arcR, hfR, hidR⟩, ⟨nR, hnR, htyR⟩, hnx, huniq⟩
  | some arc =>
    have hid : arc.id ≠ 1 := huniq p arc hf hp
    by_cases he : arc.ext = 0
    · rw [delete_eq_unique s p arc hf he] at h
      injection h with h
      subst h
      refine ⟨⟨arcR, ?_, hidR⟩, ⟨nR, ?_, htyR⟩, hnx, ?_⟩
      · rw [alistFind?_erase_ne p "/" _ (Ne.symm hp)]
        exact hfR
      · rw [alistFind?_erase_ne arc.id 1 _ (fun hh => hid hh.symm)]
        exact hnR
      · intro q arcq hq hqne
        by_cases hqp : q = p
        · subst hqp
          rw [alistFind?_erase_self] at hq
          cases hq
        · rw [alistFind?_erase_ne p q _ hqp] at hq
          exact huniq q arcq hq hqne
    · rw [delete_eq_observed s p arc hf he] at h
      injection h with h
      subst h
      refine ⟨⟨arcR, ?_, hidR⟩, ⟨nR, hnR, htyR⟩, hnx, ?_⟩
      · rw [alistFind?_insert_ne p "/" _ _ (Ne.symm hp),
          alistFind?_erase_ne p "/" _ (Ne.symm hp)]
        exact hfR
      · intro q arcq hq hqne
        by_cases hqp : q = p
        · subst hqp
          rw [alistFind?_insert_self] at hq
          injection hq with hq
          subst hq
          exact huniq q arc hf hqne
        · rw [alistFind?_insert_ne p q _ _ hqp,
            alistFind?_erase_ne p q _ hqp] at hq
          exact huniq q arcq hq hqne

theorem RootInv_truncate (s : MemFS) (p : String) (hI : RootInv s)
    (s' : MemFS) (h : stepOp s (Op.truncate p) = some s') : RootInv s' := by
  obtain ⟨⟨arcR, hfR, hidR⟩, ⟨nR, hnR, htyR⟩, hnx, huniq⟩ := hI
  replace h : outState (s.truncate p) = some s' := h
  cases hf : alistFind? p s.files with
  | none =>
    rw [truncate_eq_absent s p hf] at h
    injection h with h
    subst h
    exact ⟨⟨arcR, hfR, hidR⟩, ⟨nR, hnR, htyR⟩, hnx, huniq⟩
  | some arc =>
    cases hm : alistFind? arc.id s.mnodes with
    | none =>
      rw [truncate_eq_nomnode s p arc hf hm] at h
      injection h with h
      subst h
      exact ⟨⟨arcR, hfR, hidR⟩, ⟨nR, hnR, htyR⟩, hnx, huniq⟩
    | some node =>
      rw [truncate_eq_found s p arc node hf hm] at h
      cases ht : node.file_truncate with
      | ok r =>
        rw [ht] at h
        injection h with h
        subst h
        have hid : arc.id ≠ 1 := by
          by_cases hp : p = "/"
          · subst hp
            rw [hfR] at hf
            injection hf with hf
            subst hf
            rw [hidR] at hm
            rw [hnR] at hm
            injection hm with hm
            subst hm
            simp [MemNode.file_truncate, htyR] at ht
          · exact huniq p arc hf hp
        refine ⟨⟨arcR, hfR, hidR⟩, ⟨nR, ?_, htyR⟩, hnx, huniq⟩
        rw [alistFind?_insert_ne arc.id 1 _ _ (fun hh => hid hh.symm)]
        exact hnR
      | err e =>
        rw [ht] at h
        injection h with h
        subst h
        exact ⟨⟨arcR, hfR, hidR⟩, ⟨nR, hnR, htyR⟩, hnx, huniq⟩
      | panicked =>
        rw [ht] at h
        exact Option.noConfusion h

theorem RootInv_rename (s : MemFS) (a b : String) (ha : a ≠ "/") (hb : b ≠ "/")
    (hI : RootInv s) (s' : MemFS) (h : stepOp s (Op.rename a b) = some s') :
    RootInv s' := by
  obtain ⟨⟨arcR, hfR, hidR⟩, ⟨nR, hnR, htyR⟩, hnx, huniq⟩ := hI
  replace h : outState (s.rename a b) = some s' := h
  cases hfa : alistFind? a s.files with
  | none =>
    rw [rename_eq_absent s a b hfa] at h
    injection h with h
    subst h
    exact ⟨⟨arcR, hfR, hidR⟩, ⟨nR, hnR, htyR⟩, hnx, huniq⟩
  | some arcA =>
    have hidA : arcA.id ≠ 1 := huniq a arcA hfa ha
    by_cases hab : a = b
    · subst hab
      by_cases he : arcA.ext = 0
      · rw [rename_eq_self_unique s a arcA hfa he] at h
        exact Option.noConfusion h
      · rw [rename_eq_observed s a a arcA arcA hfa hfa he] at h
        exact Option.noConfusion h
    · cases hfb : alistFind? b s.files with
      | none =>
        rw [rename_eq_move s a b arcA hfa hfb hab] at h
        injection h with h
        subst h
        refine ⟨⟨arcR, ?_, hidR⟩, ⟨nR, hnR, htyR⟩, hnx, ?_⟩
        · rw [alistFind?_insert_ne b "/" _ _ (Ne.symm hb),
            alistFind?_erase_ne a "/" _ (Ne.symm ha)]
          exact hfR
        · intro q arcq hq hqne
          by_cases hqb : q = b
          · subst hqb
            rw [alistFind?_insert_self] at hq
            injection hq with hq
            subst hq
            exact hidA
          · rw [alistFind?_insert_ne b q _ _ hqb] at hq
            by_cases hqa : q = a
            · subst hqa
              rw [alistFind?_erase_self] at hq
              cases hq
            · rw [alistFind?_erase_ne a q _ hqa] at hq
              exact huniq q arcq hq hqne
      | some arcB =>
        have hidB : arcB.id ≠ 1 := huniq b arcB hfb hb
        by_cases he : arcB.ext = 0
        · rw [rename_eq_overwrite s a b arcA arcB hfa hfb he hab] at h
          injection h with h
          subst h
          refine ⟨⟨arcR, ?_, hidR⟩, ⟨nR, ?_, htyR⟩, hnx, ?_⟩
          · rw [alistFind?_insert_ne b "/" _ _ (Ne.symm hb),
              alistFind?_erase_ne a "/" _ (Ne.symm ha),
              alistFind?_erase_ne b "/" _ (Ne.symm hb)]
            exact hfR
          · rw [alistFind?_erase_ne arcB.id 1 _ (fun hh => hidB hh.symm)]
            exact hnR
          · intro q arcq hq hqne
            by_cases hqb : q = b
            · subst hqb
              rw [alistFind?_insert_self] at hq
              injection hq with hq
              subst hq
              exact hidA
            · rw [alistFind?_insert_ne b q _ _ hqb] at hq
              by_cases hqa : q = a
              · subst hqa
                rw [alistFind?_erase_self] at hq
                cases hq
              · rw [alistFind?_erase_ne a q _ hqa,
                  alistFind?_erase_ne b q _ hqb] at hq
                exact huniq q arcq hq hqne
        · rw [rename_eq_observed s a b arcA arcB hfa hfb he] at h
          exact Option.noConfusion h

theorem RootInv_step (s : MemFS) (op : Op) (hI : RootInv s)
    (hav : opAvoidsRoot op = true) (s' : MemFS) (h : stepOp s op = some s') :
    RootInv s' := by
  cases op with
  | create p m => exact RootInv_create s p m hI s' h
  | write i b o => exact RootInv_write s i b o hI s' h
  | read i b o => exact RootInv_read s i b o hI s' h
  | lookup p => exact RootInv_lookup s p hI s' h
  | dropRef p => exact RootInv_dropRef s p hI s' h
  | fileInfo i => exact RootInv_fileInfo s i hI s' h
  | delete p =>
    have hp : p ≠ "/" := by simpa [opAvoidsRoot] using hav
    exact RootInv_delete s p hp hI s' h
  | truncate p => exact RootInv_truncate s p hI s' h
  | rename a b =>
    have hav' : a ≠ "/" ∧ b ≠ "/" := by simpa [opAvoidsRoot] using hav
    exact RootInv_rename s a b hav'.1 hav'.2 hI s' h

theorem RootInv_run (ops : List Op) : ∀ s : MemFS, RootInv s →
    (∀ op ∈ ops, opAvoidsRoot op = true) → ∀ s' : MemFS,
    runOps s ops = some s' → RootInv s' := by
  induction ops with
  | nil =>
    intro s hI _ s' h
    replace h : some s = some s' := h
    injection h with h
    subst h
    exact hI
  | cons op rest ih =>
    intro s hI hops s' h
    replace h : (match stepOp s op with
      | some s1 => runOps s1 rest
      | none => none) = some s' := h
    cases hst : stepOp s op with
    | none =>
      rw [hst] at h
      exact Option.noConfusion h
    | some s1 =>
      rw [hst] at h
      replace h : runOps s1 rest = some s' := h
      exact ih s1 (RootInv_step s op hI (hops op (List.mem_cons_self op rest)) s1 hst)
        (fun o ho => hops o (List.mem_cons_of_mem _ ho)) s' h

/-- Claim C1 (amended): the root survives every sequence of well-formed
calls that never targets the root path, i.e. that contains no
delete("/") and no rename with "/" as source or destination: afterwards
lookup("/") resolves to id 1, id 1 is present in mnodes with kind
Directory, and file_info(1) reports kind Directory (a delete("/") with
the root uniquely owned does succeed and removes the root, see the
counterexample). -/
theorem root_preserved (ops : List Op)
    (hops : ∀ op ∈ ops, opAvoidsRoot op = true) (s' : MemFS)
    (h : runOps MemFS.defaultFS ops = some s') :
    (s'.lookup "/").1 = some 1 ∧
    (alistFind? 1 s'.mnodes).map MemNode.get_mnode_type =
      some NodeType.Directory ∧
    s'.file_info 1 = FsOut.ok (FileInfo.mk 0 1) s' := by
  have hI : RootInv s' := RootInv_run ops MemFS.defaultFS RootInv_default hops s' h
  obtain ⟨⟨arcR, hfR, hidR⟩, ⟨nR, hnR, htyR⟩, hnx, huniq⟩ := hI
  refine ⟨?_, ?_, ?_⟩
  · rw [lookup_eq_found s' "/" arcR hfR]
    dsimp only []
    rw [hidR]
  · rw [hnR]
    simp [MemNode.get_mnode_type, htyR]
  · have htid : ¬ MAX_READER_THREADS ≤ MemFS.readerTid 1 := by decide
    rw [file_info_eq_found s' 1 htid nR hnR]
    simp [MemNode.get_mnode_type, htyR]

/-- The state left by running create("a") then delete("a") from the
default filesystem. -/
def fsAfterAB : MemFS :=
  { mnodes := [(1, MemNode.new 1 "/" S_IRWXU NodeType.Directory)]
  , files := [("/", Arc.mk 1 0)]
  , nextmemnode := 3 }

/-- Witness for C1 (amended): after create("a") and delete("a"), the
root is still resolvable, present and a directory. -/
theorem root_preserved_witness :
    (fsAfterAB.lookup "/").1 = some 1 ∧
    (alistFind? 1 fsAfterAB.mnodes).map MemNode.get_mnode_type =
      some NodeType.Directory ∧
    fsAfterAB.file_info 1 = FsOut.ok (FileInfo.mk 0 1) fsAfterAB :=
  root_preserved [Op.create "a" S_IRWXU, Op.delete "a"] (by decide) fsAfterAB rfl
